import Mathlib

set_option autoImplicit false

/-! Shallow embedding of OpTrack (src/OpTrack.go).

Modelling conventions:
* Go `time.Time` values are modelled by their instant, an `Int` measured from
  the Go zero time instant (January 1, year 1, 00:00:00 UTC).  The zero value
  `time.Time{}` is `0`; `t.After(u)` is `t > u`; `t.IsZero()` is `t = 0`.
  The Go `time.Parse(time.RFC1123Z, s)` is a standard-library call and is
  modelled by an oracle parameter `parseTime : String → Option Int` (so the
  theorems quantify over its behaviour); note that Go really can return the
  zero instant from a successful parse, e.g. for
  "Mon, 01 Jan 0001 00:00:00 +0000".
* The HTTP fetch plus body read plus JSON decode performed by
  `QuayClient.GetOperatorStatus` is a standard-library/network boundary; its
  outcome is modelled by an oracle `fetch : String → QuayResponse` indexed by
  the request URL, whose constructors are exactly the failure points the Go
  code distinguishes, in code order.
* The Go map `map[string]JiraTicket` is modelled as an association list with
  map semantics (`assocPut`, `assocGet`, `assocDel`).
* The data directory is modelled as a mapping from file names (as produced by
  `ticket.ID + ".json"`) to the decoded ticket the JSON file holds; JSON
  marshalling/unmarshalling of a `JiraTicket` (standard library) is taken as
  faithful.  `ioutil.WriteFile` failures are modelled by an oracle
  `writeOk : String → Bool`; abnormal `os.Remove` failures (anything other
  than `IsNotExist`) by an oracle `removeFail : String → Option String`.
-/

/-- Go struct `JiraTicket`: a JIRA ticket and its associated operators. -/
structure JiraTicket where
  ID : String
  Operators : List String
  Added : Int
  deriving DecidableEq

/-- Go struct `QuayTagInfo`: a single tag in the Quay.io API response. -/
structure QuayTagInfo where
  Name : String
  LastModified : String
  ManifestDigest : String
  deriving DecidableEq

/-- Go struct `OperatorStatus`: the status of an operator in Quay.io.
`LastUpdated` is the instant of the Go `time.Time` field (zero value `0`),
`SHA256` the digest string (zero value `""`). -/
structure OperatorStatus where
  Name : String
  LastUpdated : Int
  SHA256 : String
  Status : String
  deriving DecidableEq

/-- Outcome of the network fetch, body read and JSON decode in
`GetOperatorStatus`, in the order the Go code checks them:
`HTTPClient.Get` error, non-200 status code, `ioutil.ReadAll` error,
`json.Unmarshal` error, or a decoded `QuayTagResponse.Tags` list. -/
inductive QuayResponse where
  | connectError
  | httpError (code : Nat)
  | readError
  | decodeError (msg : String)
  | tags (tagList : List QuayTagInfo)
  deriving DecidableEq

/-- Character-list core of Go `strings.Split` with a one-character separator:
splitting the empty string gives one empty segment, and every occurrence of
the separator ends a segment. -/
def splitChars (sep : Char) : List Char → List (List Char)
  | [] => [[]]
  | c :: cs =>
    let r := splitChars sep cs
    if c = sep then [] :: r
    else
      match r with
      | [] => [[c]]
      | h :: t => (c :: h) :: t

/-- Go `strings.Split s "/"` specialised to a one-character separator. -/
def goSplit (s : String) (sep : Char) : List String :=
  (splitChars sep s.data).map (fun l => ⟨l⟩)

/-- Go `strings.HasPrefix s p`. -/
def hasPref (s p : String) : Bool :=
  p.data.isPrefixOf s.data

/-- Go `strings.TrimPrefix s p`: drop `p` from the front of `s` when `s`
starts with `p`, otherwise return `s` unchanged. -/
def trimPref (s p : String) : String :=
  if hasPref s p then ⟨s.data.drop p.data.length⟩ else s

/-- The URL built by `fmt.Sprintf("https://quay.io/api/v1/repository/%s/%s/tag/", ...)`. -/
def tagURL (ns repository : String) : String :=
  "https://quay.io/api/v1/repository/" ++ ns ++ "/" ++ repository ++ "/tag/"

/-- Zero value of the Go `QuayTagInfo` struct (initial value of `latestTag`). -/
def zeroTag : QuayTagInfo := ⟨"", "", ""⟩

/-- One iteration of the most-recent-tag loop: parse `tag.LastModified`; on
failure skip the tag, on success replace the accumulator exactly when the
parsed time is strictly after the accumulated `latestTime`. -/
def scanStep (parseTime : String → Option Int) (acc : QuayTagInfo × Int)
    (tag : QuayTagInfo) : QuayTagInfo × Int :=
  match parseTime tag.LastModified with
  | none => acc
  | some tagTime => if tagTime > acc.2 then (tag, tagTime) else acc

/-- The full most-recent-tag loop of `GetOperatorStatus`, starting from the
zero `latestTag` and the zero `latestTime`. -/
def scanTags (parseTime : String → Option Int) (tagList : List QuayTagInfo) :
    QuayTagInfo × Int :=
  tagList.foldl (scanStep parseTime) (zeroTag, 0)

/-- The running maximum `latestTime` computed by the loop, started from `a`. -/
def runMax (parseTime : String → Option Int) (a : Int)
    (tagList : List QuayTagInfo) : Int :=
  tagList.foldl (fun b tag =>
    match parseTime tag.LastModified with
    | none => b
    | some tagTime => if tagTime > b then tagTime else b) a

/-- Go `QuayClient.GetOperatorStatus`, returning the `(*OperatorStatus, error)`
pair.  `parseTime` and `fetch` are the standard-library oracles described in
the header comment. -/
def GetOperatorStatus (parseTime : String → Option Int)
    (fetch : String → QuayResponse) (operator : String) :
    OperatorStatus × Option String :=
  let parts := goSplit operator '/'
  if parts.length ≠ 2 then
    (⟨operator, 0, "", "Invalid format. Expected: namespace/repository"⟩, none)
  else
    let ns := parts.getD 0 ""
    let repository := parts.getD 1 ""
    match fetch (tagURL ns repository) with
    | QuayResponse.connectError =>
        (⟨operator, 0, "", "Failed to connect to Quay.io"⟩, none)
    | QuayResponse.httpError code =>
        (⟨operator, 0, "", "Quay.io error: " ++ toString code⟩, none)
    | QuayResponse.readError =>
        (⟨operator, 0, "", "Failed to read response"⟩, none)
    | QuayResponse.decodeError msg =>
        (⟨operator, 0, "", "Parse error: " ++ msg⟩, none)
    | QuayResponse.tags tagList =>
        if tagList.length = 0 then
          (⟨operator, 0, "", "No tags found"⟩, none)
        else
          let r := scanTags parseTime tagList
          if r.2 = 0 then
            (⟨operator, 0, "", "No valid timestamps found"⟩, none)
          else
            (⟨operator, r.2, trimPref r.1.ManifestDigest "sha256:", "OK"⟩, none)

/-- Go map update `m[k] = v` on the ticket map, as association-list map
semantics: any previous binding of `k` is replaced. -/
def assocPut (m : List (String × JiraTicket)) (k : String) (v : JiraTicket) :
    List (String × JiraTicket) :=
  m.filter (fun p => p.1 != k) ++ [(k, v)]

/-- Go map lookup `m[k]` on the ticket map. -/
def assocGet (m : List (String × JiraTicket)) (k : String) : Option JiraTicket :=
  (m.find? (fun p => p.1 == k)).map (fun p => p.2)

/-- Go `delete(m, k)` on the ticket map. -/
def assocDel (m : List (String × JiraTicket)) (k : String) :
    List (String × JiraTicket) :=
  m.filter (fun p => p.1 != k)

/-- Go `AppState.saveTicket`: marshal the ticket and write it to the file
named `ticket.ID + ".json"`; a failed `ioutil.WriteFile` (per the `writeOk`
oracle) is returned as an error and leaves the durable store unchanged. -/
def saveTicket (writeOk : String → Bool) (fs : List (String × JiraTicket))
    (ticket : JiraTicket) : Except String (List (String × JiraTicket)) :=
  let filename := ticket.ID ++ ".json"
  if writeOk filename then Except.ok (assocPut fs filename ticket)
  else Except.error "write failed"

/-- Go `AppState.loadTicket`: read and unmarshal the file named
`ticketID + ".json"` and store the result under `ticketID` in the map. -/
def loadTicket (fs tickets : List (String × JiraTicket)) (ticketID : String) :
    Except String (List (String × JiraTicket)) :=
  match assocGet fs (ticketID ++ ".json") with
  | none => Except.error "read failed"
  | some ticket => Except.ok (assocPut tickets ticketID ticket)

/-- Outcome of Go `os.Remove`: success, an `IsNotExist` error, or another
error. -/
inductive RemoveResult where
  | removed
  | notExist
  | failed (msg : String)
  deriving DecidableEq

/-- Go `os.Remove` on the modelled data directory: an abnormal failure comes
from the `removeFail` oracle; otherwise the call removes the file if it is
present and reports `IsNotExist` if it is not. -/
def osRemove (removeFail : String → Option String)
    (fs : List (String × JiraTicket)) (filename : String) :
    RemoveResult × List (String × JiraTicket) :=
  match removeFail filename with
  | some msg => (RemoveResult.failed msg, fs)
  | none =>
      if (assocGet fs filename).isSome then
        (RemoveResult.removed, assocDel fs filename)
      else (RemoveResult.notExist, fs)

/-- Go `AppState.deleteTicket`: `os.Remove` the ticket file, treating
`IsNotExist` as success; on any other error return it without touching the
map; otherwise delete the map entry.  Returns the updated
(ticket map, durable store) pair. -/
def deleteTicket (removeFail : String → Option String)
    (tickets fs : List (String × JiraTicket)) (ticketID : String) :
    Except String (List (String × JiraTicket) × List (String × JiraTicket)) :=
  let filename := ticketID ++ ".json"
  match osRemove removeFail fs filename with
  | (RemoveResult.failed msg, _) => Except.error msg
  | (RemoveResult.removed, fs2) => Except.ok (assocDel tickets ticketID, fs2)
  | (RemoveResult.notExist, fs2) => Except.ok (assocDel tickets ticketID, fs2)

/-- Result of one `handleTickets` POST request: the in-memory map and durable
store afterwards, the HTTP status code written, and the encoded response body
(the stored ticket) when one is written. -/
structure PostResult where
  tickets : List (String × JiraTicket)
  fs : List (String × JiraTicket)
  code : Nat
  body : Option JiraTicket
  deriving DecidableEq

/-- Go `handleTickets`, POST branch, after a successful JSON decode of the
request body into `ticket`: stamp `Added` with the current time `now`, update
the in-memory map, then save the ticket; a save failure is answered with
HTTP 500 ("Failed to save ticket"), success with the encoded ticket. -/
def handleTicketsPost (writeOk : String → Bool)
    (tickets fs : List (String × JiraTicket)) (ticket : JiraTicket)
    (now : Int) : PostResult :=
  let stamped : JiraTicket := ⟨ticket.ID, ticket.Operators, now⟩
  let tickets2 := assocPut tickets stamped.ID stamped
  match saveTicket writeOk fs stamped with
  | Except.error _ => ⟨tickets2, fs, 500, none⟩
  | Except.ok fs2 => ⟨tickets2, fs2, 200, some stamped⟩

/-- Result of one `handleTickets` DELETE request: map and durable store
afterwards, plus the HTTP status code written. -/
structure DeleteResult where
  tickets : List (String × JiraTicket)
  fs : List (String × JiraTicket)
  code : Nat
  deriving DecidableEq

/-- Go `handleTickets`, DELETE branch: 400 when the `id` query parameter is
empty, 500 when `deleteTicket` fails, 200 otherwise. -/
def handleTicketsDelete (removeFail : String → Option String)
    (tickets fs : List (String × JiraTicket)) (ticketID : String) :
    DeleteResult :=
  if ticketID = "" then ⟨tickets, fs, 400⟩
  else
    match deleteTicket removeFail tickets fs ticketID with
    | Except.error _ => ⟨tickets, fs, 500⟩
    | Except.ok (tickets2, fs2) => ⟨tickets2, fs2, 200⟩

/-- One entry of the `statuses` slice built by `handleStatus`: the resolver
record when it returns a nil error, otherwise the fallback
`"Error: ..."` record. -/
def statusEntry (resolve : String → OperatorStatus × Option String)
    (operator : String) : OperatorStatus :=
  match resolve operator with
  | (st, none) => st
  | (_, some msg) => ⟨operator, 0, "", "Error: " ++ msg⟩

/-- Go `handleStatus` (GET): 404 when the ticket id is unknown, otherwise the
JSON array of one status record per operator, in the ticket stored order. -/
def handleStatus (tickets : List (String × JiraTicket))
    (resolve : String → OperatorStatus × Option String) (ticketID : String) :
    Except Nat (List OperatorStatus) :=
  match assocGet tickets ticketID with
  | none => Except.error 404
  | some ticket => Except.ok (ticket.Operators.map (statusEntry resolve))

theorem assocGet_put_self (m : List (String × JiraTicket)) (k : String)
    (v : JiraTicket) : assocGet (assocPut m k v) k = some v := by
  induction m with
  | nil => simp [assocGet, assocPut, List.find?]
  | cons p t ih =>
      by_cases h : p.1 = k
      · simp [assocPut, assocGet, h]
      · simp [assocPut, assocGet, List.find?, h]

theorem assocGet_del_self (m : List (String × JiraTicket)) (k : String) :
    assocGet (assocDel m k) k = none := by
  induction m with
  | nil => simp [assocGet, assocDel]
  | cons p t ih =>
      by_cases h : p.1 = k
      · simp [assocDel, assocGet, h]
      · simp [assocDel, assocGet, List.find?, h]

theorem scan_foldl_snd (parseTime : String → Option Int) :
    ∀ (l : List QuayTagInfo) (acc : QuayTagInfo × Int),
      (List.foldl (scanStep parseTime) acc l).2 = runMax parseTime acc.2 l := by
  intro l
  induction l with
  | nil => intro acc; rfl
  | cons tag rest ih =>
      intro acc
      simp only [List.foldl_cons, runMax, scanStep]
      cases h : parseTime tag.LastModified with
      | none => simpa [h, runMax] using ih acc
      | some v =>
          by_cases hv : v > acc.2
          · simpa [h, hv, runMax] using ih (tag, v)
          · simpa [h, hv, runMax] using ih acc

theorem scan_foldl_spec (parseTime : String → Option Int) :
    ∀ (l : List QuayTagInfo) (acc : QuayTagInfo × Int),
      (runMax parseTime acc.2 l = acc.2 ∧
        List.foldl (scanStep parseTime) acc l = acc) ∨
      (acc.2 < runMax parseTime acc.2 l ∧
        (List.foldl (scanStep parseTime) acc l).2 = runMax parseTime acc.2 l ∧
        l.find?
            (fun t => parseTime t.LastModified == some (runMax parseTime acc.2 l)) =
          some (List.foldl (scanStep parseTime) acc l).1) := by
  intro l
  induction l with
  | nil => intro acc; exact Or.inl ⟨rfl, rfl⟩
  | cons tag rest ih =>
      intro acc
      cases h : parseTime tag.LastModified with
      | none =>
          have hstep : scanStep parseTime acc tag = acc := by simp [scanStep, h]
          have hmax : runMax parseTime acc.2 (tag :: rest) =
              runMax parseTime acc.2 rest := by
            simp [runMax, h]
          rcases ih acc with ⟨h1, h2⟩ | ⟨h1, h2, h3⟩
          · exact Or.inl (by simp [hstep, hmax, h1, h2])
          · refine Or.inr ⟨by rw [hmax]; exact h1, ?_, ?_⟩
            · simp [hstep, hmax, h2]
            · rw [hmax, List.find?]
              simp only [h, List.foldl_cons, hstep]
              exact h3
      | some v =>
          by_cases hv : v > acc.2
          · have hstep : scanStep parseTime acc tag = (tag, v) := by
              simp [scanStep, h, hv]
            have hmax : runMax parseTime acc.2 (tag :: rest) =
                runMax parseTime v rest := by
              simp [runMax, h, hv]
            rcases ih (tag, v) with ⟨h1, h2⟩ | ⟨h1, h2, h3⟩
            · refine Or.inr ⟨?_, ?_, ?_⟩
              · rw [hmax]
                simp only at h1
                rw [h1]; exact hv
              · simp only [List.foldl_cons, hstep, hmax]
                simp only at h1 h2
                rw [h2, h1]
              · rw [hmax]
                simp only at h1
                rw [h1, List.find?]
                simp only [List.foldl_cons, hstep, h2, h]
                simp
            · simp only at h1 h2 h3
              refine Or.inr ⟨?_, ?_, ?_⟩
              · rw [hmax]; exact lt_trans hv h1
              · simp only [List.foldl_cons, hstep, hmax]
                exact h2
              · rw [hmax, List.find?]
                have hne : (parseTime tag.LastModified ==
                    some (runMax parseTime v rest)) = false := by
                  simp [h]
                  omega
                simp only [hne, cond_false, List.foldl_cons, hstep]
                exact h3
          · have hstep : scanStep parseTime acc tag = acc := by
              simp [scanStep, h, hv]
            have hmax : runMax parseTime acc.2 (tag :: rest) =
                runMax parseTime acc.2 rest := by
              simp [runMax, h, hv]
            rcases ih acc with ⟨h1, h2⟩ | ⟨h1, h2, h3⟩
            · exact Or.inl (by simp [hstep, hmax, h1, h2])
            · refine Or.inr ⟨by rw [hmax]; exact h1, ?_, ?_⟩
              · simp [hstep, hmax, h2]
              · rw [hmax, List.find?]
                have hne : (parseTime tag.LastModified ==
                    some (runMax parseTime acc.2 rest)) = false := by
                  simp [h]
                  omega
                simp only [hne, cond_false, List.foldl_cons, hstep]
                exact h3

theorem le_runMax_init (parseTime : String → Option Int) :
    ∀ (l : List QuayTagInfo) (a : Int), a ≤ runMax parseTime a l := by
  intro l
  induction l with
  | nil => intro a; exact le_refl a
  | cons tag rest ih =>
      intro a
      cases h : parseTime tag.LastModified with
      | none => simpa [runMax, h] using ih a
      | some v =>
          by_cases hv : v > a
          · have : runMax parseTime a (tag :: rest) = runMax parseTime v rest := by
              simp [runMax, h, hv]
            rw [this]
            exact le_trans (le_of_lt hv) (ih v)
          · simpa [runMax, h, hv] using ih a

theorem parsed_le_runMax (parseTime : String → Option Int) :
    ∀ (l : List QuayTagInfo) (a : Int) (t : QuayTagInfo) (v : Int),
      t ∈ l → parseTime t.LastModified = some v → v ≤ runMax parseTime a l := by
  intro l
  induction l with
  | nil => intro a t v ht; exact absurd ht (List.not_mem_nil t)
  | cons tag rest ih =>
      intro a t v ht hp
      rcases List.mem_cons.mp ht with heq | hmem
      · subst heq
        by_cases hv : v > a
        · have : runMax parseTime a (t :: rest) = runMax parseTime v rest := by
            simp [runMax, hp, hv]
          rw [this]
          exact le_runMax_init parseTime rest v
        · have : runMax parseTime a (t :: rest) = runMax parseTime a rest := by
            simp [runMax, hp, hv]
          rw [this]
          exact le_trans (not_lt.mp hv) (le_runMax_init parseTime rest a)
      · cases hq : parseTime tag.LastModified with
        | none =>
            have : runMax parseTime a (tag :: rest) = runMax parseTime a rest := by
              simp [runMax, hq]
            rw [this]; exact ih a t v hmem hp
        | some w =>
            by_cases hw : w > a
            · have : runMax parseTime a (tag :: rest) = runMax parseTime w rest := by
                simp [runMax, hq, hw]
              rw [this]; exact ih w t v hmem hp
            · have : runMax parseTime a (tag :: rest) = runMax parseTime a rest := by
                simp [runMax, hq, hw]
              rw [this]; exact ih a t v hmem hp

theorem runMax_eq_of_all_le (parseTime : String → Option Int) :
    ∀ (l : List QuayTagInfo) (a : Int),
      (∀ t ∈ l, ∀ v, parseTime t.LastModified = some v → v ≤ a) →
      runMax parseTime a l = a := by
  intro l
  induction l with
  | nil => intro a _; rfl
  | cons tag rest ih =>
      intro a hall
      cases hq : parseTime tag.LastModified with
      | none =>
          have : runMax parseTime a (tag :: rest) = runMax parseTime a rest := by
            simp [runMax, hq]
          rw [this]
          exact ih a (fun t ht v hp => hall t (List.mem_cons_of_mem tag ht) v hp)
      | some w =>
          have hw : ¬ w > a :=
            not_lt.mpr (hall tag (List.mem_cons_self tag rest) w hq)
          have : runMax parseTime a (tag :: rest) = runMax parseTime a rest := by
            simp [runMax, hq, hw]
          rw [this]
          exact ih a (fun t ht v hp => hall t (List.mem_cons_of_mem tag ht) v hp)

theorem getOperatorStatus_tags (parseTime : String → Option Int)
    (fetch : String → QuayResponse) (operator : String) (l : List QuayTagInfo)
    (h1 : (goSplit operator '/').length = 2)
    (h2 : fetch (tagURL ((goSplit operator '/').getD 0 "")
        ((goSplit operator '/').getD 1 "")) = QuayResponse.tags l) :
    GetOperatorStatus parseTime fetch operator =
      (if l.length = 0 then
        (⟨operator, 0, "", "No tags found"⟩, none)
      else if (scanTags parseTime l).2 = 0 then
        (⟨operator, 0, "", "No valid timestamps found"⟩, none)
      else
        (⟨operator, (scanTags parseTime l).2,
          trimPref (scanTags parseTime l).1.ManifestDigest "sha256:", "OK"⟩,
          none)) := by
  have hb0 : 0 < (goSplit operator '/').length := by omega
  have hb1 : 1 < (goSplit operator '/').length := by omega
  simp only [List.getD_eq_getElem?_getD, List.getElem?_eq_getElem hb0,
    List.getElem?_eq_getElem hb1, Option.getD_some] at h2
  simp [GetOperatorStatus, h1, h2]

theorem getOperatorStatus_error_none (parseTime : String → Option Int)
    (fetch : String → QuayResponse) (operator : String) :
    (GetOperatorStatus parseTime fetch operator).2 = none := by
  simp only [GetOperatorStatus]
  split
  · rfl
  · split
    · rfl
    · rfl
    · rfl
    · rfl
    · split
      · rfl
      · split
        · rfl
        · rfl

theorem getOperatorStatus_name (parseTime : String → Option Int)
    (fetch : String → QuayResponse) (operator : String) :
    (GetOperatorStatus parseTime fetch operator).1.Name = operator := by
  simp only [GetOperatorStatus]
  split
  · rfl
  · split
    · rfl
    · rfl
    · rfl
    · rfl
    · split
      · rfl
      · split
        · rfl
        · rfl

theorem statusEntry_no_fallback (parseTime : String → Option Int)
    (fetch : String → QuayResponse) (operator : String) :
    statusEntry (GetOperatorStatus parseTime fetch) operator =
      (GetOperatorStatus parseTime fetch operator).1 := by
  have h := getOperatorStatus_error_none parseTime fetch operator
  unfold statusEntry
  rcases hg : GetOperatorStatus parseTime fetch operator with ⟨st, e⟩
  rw [hg] at h
  simp only at h
  subst h
  rfl

/-- C1, counterexample.  Concretely: starting from an empty ticket map and an
empty data directory, a POST upsert of the ticket OP-1 whose durable write
fails does answer with the persistence error (HTTP 500), yet the in-memory
map is NOT left unchanged: it now contains the new entry. -/
theorem c1_counterexample :
    (handleTicketsPost (fun _ => false) [] [] ⟨"OP-1", ["ns/repo"], 0⟩ 7).code
      = 500 ∧
    (handleTicketsPost (fun _ => false) [] [] ⟨"OP-1", ["ns/repo"], 0⟩ 7).tickets
      ≠ [] := by
  decide

/-- C1, amended.  When the durable write of the ticket file fails, the POST
upsert reports the persistence error (HTTP 500, no response body), but the
in-memory map has already been updated with the stamped ticket (the map
update happens before the write; the two effects are not atomic); the durable
store itself is unchanged. -/
theorem c1_upsert_write_failure
    (writeOk : String → Bool) (tickets fs : List (String × JiraTicket))
    (ticket : JiraTicket) (now : Int)
    (hw : writeOk (ticket.ID ++ ".json") = false) :
    (handleTicketsPost writeOk tickets fs ticket now).code = 500 ∧
    (handleTicketsPost writeOk tickets fs ticket now).body = none ∧
    (handleTicketsPost writeOk tickets fs ticket now).tickets =
      assocPut tickets ticket.ID ⟨ticket.ID, ticket.Operators, now⟩ ∧
    (handleTicketsPost writeOk tickets fs ticket now).fs = fs := by
  simp [handleTicketsPost, saveTicket, hw]

/-- C1, witness for the amended theorem at a concrete input. -/
theorem c1_witness :
    (handleTicketsPost (fun _ => false) [] [] ⟨"OP-1", ["ns/repo"], 0⟩ 7).code
      = 500 ∧
    (handleTicketsPost (fun _ => false) [] [] ⟨"OP-1", ["ns/repo"], 0⟩ 7).body
      = none ∧
    (handleTicketsPost (fun _ => false) [] [] ⟨"OP-1", ["ns/repo"], 0⟩ 7).tickets
      = assocPut [] "OP-1" ⟨"OP-1", ["ns/repo"], 7⟩ ∧
    (handleTicketsPost (fun _ => false) [] [] ⟨"OP-1", ["ns/repo"], 0⟩ 7).fs
      = [] :=
  c1_upsert_write_failure (fun _ => false) [] [] ⟨"OP-1", ["ns/repo"], 0⟩ 7 rfl

/-- C8: a POST upsert of ticket T whose durable write succeeds answers 200,
and reloading the written per-ticket file into a fresh (restarted, empty)
in-memory map recovers a ticket equal to T in id and operators, with `added`
equal to the timestamp the store assigned at upsert time (`now`), not the
caller-supplied `T.Added`. -/
theorem c8_store_round_trip
    (writeOk : String → Bool) (tickets fs : List (String × JiraTicket))
    (ticket : JiraTicket) (now : Int)
    (hw : writeOk (ticket.ID ++ ".json") = true) :
    (handleTicketsPost writeOk tickets fs ticket now).code = 200 ∧
    loadTicket (handleTicketsPost writeOk tickets fs ticket now).fs []
        ticket.ID =
      Except.ok [(ticket.ID, ⟨ticket.ID, ticket.Operators, now⟩)] := by
  have hput :
      assocGet (assocPut fs (ticket.ID ++ ".json")
          ⟨ticket.ID, ticket.Operators, now⟩) (ticket.ID ++ ".json") =
        some ⟨ticket.ID, ticket.Operators, now⟩ :=
    assocGet_put_self fs (ticket.ID ++ ".json") ⟨ticket.ID, ticket.Operators, now⟩
  have hnil : ∀ (k : String) (v : JiraTicket), assocPut [] k v = [(k, v)] :=
    fun _ _ => rfl
  simp [handleTicketsPost, saveTicket, hw, loadTicket, hput, hnil]

/-- C8, witness at a concrete input. -/
theorem c8_witness :
    (handleTicketsPost (fun _ => true) [] [] ⟨"OP-1", ["ns/repo"], 3⟩ 7).code
      = 200 ∧
    loadTicket (handleTicketsPost (fun _ => true) [] [] ⟨"OP-1", ["ns/repo"], 3⟩ 7).fs
        [] "OP-1" =
      Except.ok [("OP-1", ⟨"OP-1", ["ns/repo"], 7⟩)] :=
  c8_store_round_trip (fun _ => true) [] [] ⟨"OP-1", ["ns/repo"], 3⟩ 7 rfl

/-- C10: for every ticket id, present or not in the map or on disk, when
`os.Remove` raises no abnormal failure (absence only ever surfaces as
`IsNotExist`, which the code ignores), `deleteTicket` succeeds, and
afterwards the id is absent from both the in-memory map and the durable
store; the DELETE handler answers 200 whenever the id parameter is
non-empty. -/
theorem c10_delete_idempotent
    (removeFail : String → Option String)
    (tickets fs : List (String × JiraTicket)) (ticketID : String)
    (hr : removeFail (ticketID ++ ".json") = none) :
    (∃ tickets2 fs2,
        deleteTicket removeFail tickets fs ticketID =
          Except.ok (tickets2, fs2) ∧
        assocGet tickets2 ticketID = none ∧
        assocGet fs2 (ticketID ++ ".json") = none) ∧
    (ticketID ≠ "" →
      (handleTicketsDelete removeFail tickets fs ticketID).code = 200) := by
  have hdel :
      deleteTicket removeFail tickets fs ticketID =
        Except.ok (assocDel tickets ticketID,
          if (assocGet fs (ticketID ++ ".json")).isSome then
            assocDel fs (ticketID ++ ".json") else fs) := by
    by_cases h : (assocGet fs (ticketID ++ ".json")).isSome
    · simp [deleteTicket, osRemove, hr, h]
    · simp [deleteTicket, osRemove, hr, h]
  constructor
  · refine ⟨assocDel tickets ticketID, _, hdel, assocGet_del_self tickets ticketID, ?_⟩
    by_cases h : (assocGet fs (ticketID ++ ".json")).isSome
    · simp [h, assocGet_del_self]
    · simp only [h, if_false]
      exact Option.not_isSome_iff_eq_none.mp h
  · intro hne
    simp [handleTicketsDelete, hne, hdel]

/-- C10, witness at a concrete input: the id is absent from both the map and
the disk. -/
theorem c10_witness :
    (∃ tickets2 fs2,
        deleteTicket (fun _ => none) [] [] "OP-9" =
          Except.ok (tickets2, fs2) ∧
        assocGet tickets2 "OP-9" = none ∧
        assocGet fs2 ("OP-9" ++ ".json") = none) ∧
    ("OP-9" ≠ "" →
      (handleTicketsDelete (fun _ => none) [] [] "OP-9").code = 200) :=
  c10_delete_idempotent (fun _ => none) [] [] "OP-9" rfl

/-- Sanity check of the digest stripping on the two spec examples. -/
theorem trimPref_spec_examples :
    trimPref "sha256:abcd" "sha256:" = "abcd" ∧ trimPref "abcd" "sha256:" = "abcd" := by
  decide

/-- C2, counterexample.  Concretely: a tag list with N = 1 record whose
last_modified is "Mon, 01 Jan 0001 00:00:00 +0000" — a string that parses
under RFC1123 with numeric zone, to exactly the zero time instant (so M = 1)
— does not produce status "OK": the code answers "No valid timestamps found"
because selection starts from the zero value and uses strict After. -/
theorem c2_counterexample :
    (GetOperatorStatus
        (fun s => if s = "Mon, 01 Jan 0001 00:00:00 +0000" then some 0 else none)
        (fun _ => QuayResponse.tags
          [⟨"v1", "Mon, 01 Jan 0001 00:00:00 +0000", "sha256:abcd"⟩])
        "a/b").1.Status = "No valid timestamps found" ∧
    (GetOperatorStatus
        (fun s => if s = "Mon, 01 Jan 0001 00:00:00 +0000" then some 0 else none)
        (fun _ => QuayResponse.tags
          [⟨"v1", "Mon, 01 Jan 0001 00:00:00 +0000", "sha256:abcd"⟩])
        "a/b").1.Status ≠ "OK" := by
  decide

/-- C2, amended.  For a tag list of N records of which M (1 ≤ M ≤ N) parse,
PROVIDED at least one parsed timestamp is strictly after the zero time
instant, resolve returns status "OK", last-updated equal to the maximum of
the parsed timestamps, and digest equal to the manifest-digest of the
selected maximal tag with a leading "sha256:" prefix stripped; on a tie the
earliest-indexed maximal tag (the first one `find?` reaches) is selected. -/
theorem c2_ok_with_positive_max (parseTime : String → Option Int)
    (fetch : String → QuayResponse) (operator : String) (l : List QuayTagInfo)
    (h1 : (goSplit operator '/').length = 2)
    (h2 : fetch (tagURL ((goSplit operator '/').getD 0 "")
        ((goSplit operator '/').getD 1 "")) = QuayResponse.tags l)
    (h3 : ∃ t ∈ l, ∃ v, parseTime t.LastModified = some v ∧ 0 < v) :
    ∃ sel m,
      scanTags parseTime l = (sel, m) ∧
      (∃ t ∈ l, parseTime t.LastModified = some m) ∧
      (∀ t ∈ l, ∀ v, parseTime t.LastModified = some v → v ≤ m) ∧
      List.find? (fun t => parseTime t.LastModified == some m) l = some sel ∧
      GetOperatorStatus parseTime fetch operator =
        (⟨operator, m, trimPref sel.ManifestDigest "sha256:", "OK"⟩, none) := by
  obtain ⟨t0, ht0, v0, hp0, hv0⟩ := h3
  have hpos : 0 < runMax parseTime 0 l :=
    lt_of_lt_of_le hv0 (parsed_le_runMax parseTime l 0 t0 v0 ht0 hp0)
  rcases scan_foldl_spec parseTime l (zeroTag, 0) with ⟨ha, _⟩ | ⟨_, hb, hc⟩
  · have ha2 : runMax parseTime 0 l = 0 := ha
    rw [ha2] at hpos
    exact absurd hpos (lt_irrefl 0)
  · have hb2 : (scanTags parseTime l).2 = runMax parseTime 0 l := hb
    have hc2 : List.find?
        (fun t => parseTime t.LastModified == some (runMax parseTime 0 l)) l =
        some (scanTags parseTime l).1 := hc
    refine ⟨(scanTags parseTime l).1, runMax parseTime 0 l, ?_, ?_, ?_, hc2, ?_⟩
    · rw [← hb2]
    · refine ⟨(scanTags parseTime l).1, List.mem_of_find?_eq_some hc2, ?_⟩
      simpa using List.find?_some hc2
    · intro t ht v hp
      exact parsed_le_runMax parseTime l 0 t v ht hp
    · rw [getOperatorStatus_tags parseTime fetch operator l h1 h2]
      have hne : ¬ l.length = 0 := by
        intro h0
        rw [List.length_eq_zero] at h0
        subst h0
        exact absurd ht0 (List.not_mem_nil t0)
      have hz : ¬ (scanTags parseTime l).2 = 0 := by
        rw [hb2]
        omega
      rw [if_neg hne, if_neg hz, hb2]

/-- C2, witness for the amended theorem: two tags share the maximal
timestamp; the earliest-indexed one (carrying digest "sha256:d1", stripped
to "d1") is selected. -/
theorem c2_witness :
    ∃ sel m,
      scanTags
          (fun s => if s = "t1" then some 5 else if s = "t2" then some 5 else none)
          [⟨"one", "t1", "sha256:d1"⟩, ⟨"two", "t2", "d2"⟩] = (sel, m) ∧
      (∃ t ∈ [QuayTagInfo.mk "one" "t1" "sha256:d1", QuayTagInfo.mk "two" "t2" "d2"],
        (fun s => if s = "t1" then some 5 else if s = "t2" then some 5 else none)
          t.LastModified = some m) ∧
      (∀ t ∈ [QuayTagInfo.mk "one" "t1" "sha256:d1", QuayTagInfo.mk "two" "t2" "d2"],
        ∀ v, (fun s => if s = "t1" then some 5 else if s = "t2" then some 5 else none)
          t.LastModified = some v → v ≤ m) ∧
      List.find?
          (fun t => (fun s => if s = "t1" then some 5 else if s = "t2" then some 5 else none)
            t.LastModified == some m)
          [⟨"one", "t1", "sha256:d1"⟩, ⟨"two", "t2", "d2"⟩] = some sel ∧
      GetOperatorStatus
          (fun s => if s = "t1" then some 5 else if s = "t2" then some 5 else none)
          (fun _ => QuayResponse.tags
            [⟨"one", "t1", "sha256:d1"⟩, ⟨"two", "t2", "d2"⟩])
          "a/b" =
        (⟨"a/b", m, trimPref sel.ManifestDigest "sha256:", "OK"⟩, none) :=
  c2_ok_with_positive_max
    (fun s => if s = "t1" then some 5 else if s = "t2" then some 5 else none)
    (fun _ => QuayResponse.tags
      [⟨"one", "t1", "sha256:d1"⟩, ⟨"two", "t2", "d2"⟩])
    "a/b"
    [⟨"one", "t1", "sha256:d1"⟩, ⟨"two", "t2", "d2"⟩]
    (by decide) rfl
    ⟨⟨"one", "t1", "sha256:d1"⟩, by decide, 5, by decide, by decide⟩

/-- C3, counterexample.  The identifier "ns/" splits into exactly two
segments of which one is empty, so by the claim it should be rejected as
invalid without any network fetch; but the code only checks that the split
has exactly two parts, so it does fetch, and under a 404-returning registry
the status is "Quay.io error: 404", not the invalid-format string. -/
theorem c3_counterexample :
    goSplit "ns/" '/' = ["ns", ""] ∧
    (GetOperatorStatus (fun _ => none) (fun _ => QuayResponse.httpError 404)
        "ns/").1.Status = "Quay.io error: 404" ∧
    (GetOperatorStatus (fun _ => none) (fun _ => QuayResponse.httpError 404)
        "ns/").1.Status ≠ "Invalid format. Expected: namespace/repository" := by
  decide

/-- C3, amended.  For every identifier whose split on the separator does not
yield exactly two segments (equivalently, every identifier without exactly
one separator; the segments may be empty), resolve returns exactly the
invalid-format status record, with the identifier echoed as name and no
timestamp and no digest, and the result is independent of the fetch and
parse oracles (no network fetch influences it). -/
theorem c3_invalid_format (parseTime parseTime2 : String → Option Int)
    (fetch fetch2 : String → QuayResponse) (operator : String)
    (h : (goSplit operator '/').length ≠ 2) :
    GetOperatorStatus parseTime fetch operator =
      (⟨operator, 0, "", "Invalid format. Expected: namespace/repository"⟩,
        none) ∧
    GetOperatorStatus parseTime fetch operator =
      GetOperatorStatus parseTime2 fetch2 operator := by
  constructor
  · simp [GetOperatorStatus, h]
  · simp [GetOperatorStatus, h]

/-- C3, witness at a concrete input without any separator. -/
theorem c3_witness :
    GetOperatorStatus (fun _ => none) (fun _ => QuayResponse.connectError)
      "abc" =
      (⟨"abc", 0, "", "Invalid format. Expected: namespace/repository"⟩,
        none) ∧
    GetOperatorStatus (fun _ => none) (fun _ => QuayResponse.connectError)
      "abc" =
      GetOperatorStatus (fun _ => some 3) (fun _ => QuayResponse.readError)
        "abc" :=
  c3_invalid_format (fun _ => none) (fun _ => some 3)
    (fun _ => QuayResponse.connectError) (fun _ => QuayResponse.readError)
    "abc" (by decide)

/-- C4, counterexample.  A tag whose manifest_digest is the empty string but
whose timestamp parses yields a record with status "OK" and an empty digest,
so "no record with status OK ever has an empty digest string" is false. -/
theorem c4_counterexample :
    (GetOperatorStatus
        (fun s => if s = "Mon, 02 Jan 2006 15:04:05 -0700" then some 5 else none)
        (fun _ => QuayResponse.tags
          [⟨"v1", "Mon, 02 Jan 2006 15:04:05 -0700", ""⟩])
        "a/b").1.Status = "OK" ∧
    (GetOperatorStatus
        (fun s => if s = "Mon, 02 Jan 2006 15:04:05 -0700" then some 5 else none)
        (fun _ => QuayResponse.tags
          [⟨"v1", "Mon, 02 Jan 2006 15:04:05 -0700", ""⟩])
        "a/b").1.SHA256 = "" := by
  decide

/-- C4, amended.  For every status record returned by resolve, the status is
"OK" if and only if the last-updated timestamp is populated (differs from
the zero time instant); the digest of an "OK" record is the manifest-digest
of the selected tag with any "sha256:" prefix stripped, and may be empty. -/
theorem c4_ok_iff_timestamp (parseTime : String → Option Int)
    (fetch : String → QuayResponse) (operator : String) :
    ((GetOperatorStatus parseTime fetch operator).1.Status = "OK" ↔
      (GetOperatorStatus parseTime fetch operator).1.LastUpdated ≠ 0) := by
  have hq : ∀ code : Nat, "Quay.io error: " ++ toString code ≠ "OK" := by
    intro code h
    have hd := congrArg String.data h
    have he : ("Quay.io error: " ++ toString code).data =
        "Quay.io error: ".data ++ (toString code).data := rfl
    rw [he] at hd
    have hl := congrArg List.length hd
    rw [List.length_append] at hl
    have e1 : ("Quay.io error: ".data).length = 15 := rfl
    have e2 : ("OK".data).length = 2 := rfl
    omega
  have hp : ∀ msg : String, "Parse error: " ++ msg ≠ "OK" := by
    intro msg h
    have hd := congrArg String.data h
    have he : ("Parse error: " ++ msg).data =
        "Parse error: ".data ++ msg.data := rfl
    rw [he] at hd
    have hl := congrArg List.length hd
    rw [List.length_append] at hl
    have e1 : ("Parse error: ".data).length = 13 := rfl
    have e2 : ("OK".data).length = 2 := rfl
    omega
  simp only [GetOperatorStatus]
  split
  · simp
  · split
    · simp
    · rename_i code heq
      simp [hq code]
    · simp
    · rename_i msg heq
      simp [hp msg]
    · split
      · simp
      · split
        · simp
        · rename_i hnz
          simp [hnz]

/-- C5: for a successfully fetched and decoded tag list, an empty list yields
status "No tags found", and a non-empty list in which no last_modified field of a tag
parses yields "No valid timestamps found"; in both cases the record carries
no timestamp (zero instant) and no digest (empty string). -/
theorem c5_no_tags_no_valid (parseTime : String → Option Int)
    (fetch : String → QuayResponse) (operator : String) (l : List QuayTagInfo)
    (h1 : (goSplit operator '/').length = 2)
    (h2 : fetch (tagURL ((goSplit operator '/').getD 0 "")
        ((goSplit operator '/').getD 1 "")) = QuayResponse.tags l) :
    (l = [] →
      GetOperatorStatus parseTime fetch operator =
        (⟨operator, 0, "", "No tags found"⟩, none)) ∧
    (l ≠ [] → (∀ t ∈ l, parseTime t.LastModified = none) →
      GetOperatorStatus parseTime fetch operator =
        (⟨operator, 0, "", "No valid timestamps found"⟩, none)) := by
  rw [getOperatorStatus_tags parseTime fetch operator l h1 h2]
  constructor
  · intro h
    subst h
    simp
  · intro hne hall
    have hz : (scanTags parseTime l).2 = 0 := by
      have hs : (scanTags parseTime l).2 = runMax parseTime 0 l :=
        scan_foldl_snd parseTime l (zeroTag, 0)
      have hr := runMax_eq_of_all_le parseTime l 0 (fun t ht v hpv => by
        rw [hall t ht] at hpv
        cases hpv)
      rw [hs, hr]
    have hlen : ¬ l.length = 0 := by
      simpa [List.length_eq_zero] using hne
    rw [if_neg hlen, if_pos hz]

/-- C5, witness: an empty tag list, and a one-element list whose timestamp
does not parse. -/
theorem c5_witness :
    GetOperatorStatus (fun _ => none) (fun _ => QuayResponse.tags []) "a/b" =
      (⟨"a/b", 0, "", "No tags found"⟩, none) ∧
    GetOperatorStatus (fun _ => none)
        (fun _ => QuayResponse.tags [⟨"v1", "not a date", "d"⟩]) "a/b" =
      (⟨"a/b", 0, "", "No valid timestamps found"⟩, none) :=
  ⟨(c5_no_tags_no_valid (fun _ => none) (fun _ => QuayResponse.tags [])
      "a/b" [] (by decide) rfl).1 rfl,
   (c5_no_tags_no_valid (fun _ => none)
      (fun _ => QuayResponse.tags [⟨"v1", "not a date", "d"⟩])
      "a/b" [⟨"v1", "not a date", "d"⟩] (by decide) rfl).2
      (by decide) (by decide)⟩

/-- C6: for every identifier and every fetch/parse outcome, the resolver
returns a status record with a nil error (all failures are encoded as status
strings), so the fallback error-rendering branch of the status handler never
fires: each entry of the handler slice is the resolver own record. -/
theorem c6_resolve_never_raises (parseTime : String → Option Int)
    (fetch : String → QuayResponse) (operator : String) :
    (GetOperatorStatus parseTime fetch operator).2 = none ∧
    statusEntry (GetOperatorStatus parseTime fetch) operator =
      (GetOperatorStatus parseTime fetch operator).1 :=
  ⟨getOperatorStatus_error_none parseTime fetch operator,
   statusEntry_no_fallback parseTime fetch operator⟩

/-- C7: a tag whose last_modified parses to exactly the zero time instant is
never the selected most-recent tag (selection starts from the zero value and
uses strict After); consequently, if every parseable timestamp of a non-empty tag
list equals the zero instant, resolve returns
"No valid timestamps found" even though at least one timestamp parsed. -/
theorem c7_zero_instant_never_selected (parseTime : String → Option Int)
    (fetch : String → QuayResponse) (operator : String) (l : List QuayTagInfo)
    (h1 : (goSplit operator '/').length = 2)
    (h2 : fetch (tagURL ((goSplit operator '/').getD 0 "")
        ((goSplit operator '/').getD 1 "")) = QuayResponse.tags l) :
    (∀ t ∈ l, parseTime t.LastModified = some 0 →
      (scanTags parseTime l).2 ≠ 0 → t ≠ (scanTags parseTime l).1) ∧
    (l ≠ [] →
      (∀ t ∈ l, parseTime t.LastModified = none ∨
        parseTime t.LastModified = some 0) →
      (∃ t ∈ l, parseTime t.LastModified = some 0) →
      GetOperatorStatus parseTime fetch operator =
        (⟨operator, 0, "", "No valid timestamps found"⟩, none)) := by
  constructor
  · intro t ht hpz hnz heq
    rcases scan_foldl_spec parseTime l (zeroTag, 0) with ⟨_, hb⟩ | ⟨ha, _, hc⟩
    · have hb2 : scanTags parseTime l = (zeroTag, 0) := hb
      rw [hb2] at hnz
      exact hnz rfl
    · have ha2 : (0 : Int) < runMax parseTime 0 l := ha
      have hc2 : List.find?
          (fun t => parseTime t.LastModified == some (runMax parseTime 0 l)) l =
          some (scanTags parseTime l).1 := hc
      have hpe : parseTime (scanTags parseTime l).1.LastModified =
          some (runMax parseTime 0 l) := by
        simpa using List.find?_some hc2
      rw [← heq, hpz] at hpe
      have h0 : (0 : Int) = runMax parseTime 0 l := Option.some.inj hpe
      omega
  · intro hne hall _
    rw [getOperatorStatus_tags parseTime fetch operator l h1 h2]
    have hz : (scanTags parseTime l).2 = 0 := by
      have hs : (scanTags parseTime l).2 = runMax parseTime 0 l :=
        scan_foldl_snd parseTime l (zeroTag, 0)
      have hr := runMax_eq_of_all_le parseTime l 0 (fun t ht v hpv => by
        rcases hall t ht with hn | h0
        · rw [hn] at hpv
          cases hpv
        · rw [h0] at hpv
          injection hpv with hv
          omega)
      rw [hs, hr]
    have hlen : ¬ l.length = 0 := by
      simpa [List.length_eq_zero] using hne
    rw [if_neg hlen, if_pos hz]

/-- C7, witness: one tag whose RFC1123Z timestamp string denotes exactly the
zero time instant. -/
theorem c7_witness :
    GetOperatorStatus
        (fun s => if s = "Mon, 01 Jan 0001 00:00:00 +0000" then some 0 else none)
        (fun _ => QuayResponse.tags
          [⟨"v1", "Mon, 01 Jan 0001 00:00:00 +0000", "sha256:d"⟩])
        "a/b" =
      (⟨"a/b", 0, "", "No valid timestamps found"⟩, none) :=
  (c7_zero_instant_never_selected
      (fun s => if s = "Mon, 01 Jan 0001 00:00:00 +0000" then some 0 else none)
      (fun _ => QuayResponse.tags
        [⟨"v1", "Mon, 01 Jan 0001 00:00:00 +0000", "sha256:d"⟩])
      "a/b"
      [⟨"v1", "Mon, 01 Jan 0001 00:00:00 +0000", "sha256:d"⟩]
      (by decide) rfl).2 (by decide) (by decide) (by decide)

/-- C9: a status request for a stored ticket returns exactly one status
record per operator, in the ticket stored order (the i-th record is the
resolver record for the i-th operator, and echoes that operator name);
an unknown ticket id yields a 404 error for every resolver, so no operator
is resolved. -/
theorem c9_status_per_operator (parseTime : String → Option Int)
    (fetch : String → QuayResponse) (tickets : List (String × JiraTicket))
    (ticketID : String) :
    (assocGet tickets ticketID = none →
      ∀ resolve, handleStatus tickets resolve ticketID = Except.error 404) ∧
    (∀ ticket, assocGet tickets ticketID = some ticket →
      ∃ res,
        handleStatus tickets (GetOperatorStatus parseTime fetch) ticketID =
          Except.ok res ∧
        res.length = ticket.Operators.length ∧
        ∀ i (hi : i < res.length) (ho : i < ticket.Operators.length),
          res.get ⟨i, hi⟩ =
            (GetOperatorStatus parseTime fetch
              (ticket.Operators.get ⟨i, ho⟩)).1 ∧
          (res.get ⟨i, hi⟩).Name = ticket.Operators.get ⟨i, ho⟩) := by
  constructor
  · intro h resolve
    simp [handleStatus, h]
  · intro ticket h
    refine ⟨ticket.Operators.map (statusEntry (GetOperatorStatus parseTime fetch)),
      by simp [handleStatus, h], by simp, ?_⟩
    intro i hi ho
    have hg : (ticket.Operators.map
        (statusEntry (GetOperatorStatus parseTime fetch))).get ⟨i, hi⟩ =
        statusEntry (GetOperatorStatus parseTime fetch)
          (ticket.Operators.get ⟨i, ho⟩) := by
      simp [List.getElem_map]
    rw [hg, statusEntry_no_fallback]
    exact ⟨rfl, getOperatorStatus_name parseTime fetch _⟩

/-- C9, witness: a one-ticket store; an unknown id gives 404, the known id
gives one record per operator in order. -/
theorem c9_witness :
    handleStatus [("OP-1", ⟨"OP-1", ["a/b"], 0⟩)]
        (GetOperatorStatus (fun _ => none) (fun _ => QuayResponse.tags []))
        "OP-2" = Except.error 404 ∧
    ∃ res,
      handleStatus [("OP-1", ⟨"OP-1", ["a/b"], 0⟩)]
          (GetOperatorStatus (fun _ => none) (fun _ => QuayResponse.tags []))
          "OP-1" = Except.ok res ∧
      res.length = (JiraTicket.mk "OP-1" ["a/b"] 0).Operators.length ∧
      ∀ i (hi : i < res.length)
        (ho : i < (JiraTicket.mk "OP-1" ["a/b"] 0).Operators.length),
        res.get ⟨i, hi⟩ =
          (GetOperatorStatus (fun _ => none) (fun _ => QuayResponse.tags [])
            ((JiraTicket.mk "OP-1" ["a/b"] 0).Operators.get ⟨i, ho⟩)).1 ∧
        (res.get ⟨i, hi⟩).Name =
          (JiraTicket.mk "OP-1" ["a/b"] 0).Operators.get ⟨i, ho⟩ :=
  ⟨(c9_status_per_operator (fun _ => none) (fun _ => QuayResponse.tags [])
      [("OP-1", ⟨"OP-1", ["a/b"], 0⟩)] "OP-2").1 (by decide)
      (GetOperatorStatus (fun _ => none) (fun _ => QuayResponse.tags [])),
   (c9_status_per_operator (fun _ => none) (fun _ => QuayResponse.tags [])
      [("OP-1", ⟨"OP-1", ["a/b"], 0⟩)] "OP-1").2
      ⟨"OP-1", ["a/b"], 0⟩ (by decide)⟩
